import Mathlib

/-!
Shallow embedding of `src/indexnow_submitter.py` (IndexNow Auto Submitter).

The program is a single Python file.  We embed its core functions:

* `fetch_sitemap_urls` — sitemap fetching/parsing (XML modelled as an
  element tree, HTTP as an oracle `String → HttpFetch`);
* `load_submitted_urls` / `save_submitted_urls` — the submission ledger
  (the newline-delimited file is modelled at line granularity as
  `Option (List String)`, `none` meaning the file does not exist);
* `get_new_urls` — the diff engine;
* `submit_to_indexnow` — the submission client (the network is modelled
  as the list of HTTP status codes the endpoint answers with, one per
  POST request, consumed in order);
* the submit/record step of `main` (lines 379–387).

Python lists over arbitrary hashable values become `List α` with
`DecidableEq α`; Python sets become `Finset`.
-/

namespace IndexNow

/-- Configuration constant `API_KEY` (line 19 of the source). -/
def API_KEY : String := "your-api-key-here"

/-- Configuration constant `SITE_URL` (line 20 of the source). -/
def SITE_URL : String := "https://yourdomain.com"

/-- Configuration constant `INDEXNOW_ENDPOINT` (line 29 of the source). -/
def INDEXNOW_ENDPOINT : String := "https://api.indexnow.org/indexnow"

/-- The JSON payload built by `submit_to_indexnow` (source lines 255–260):
`{host, key, keyLocation, urlList}`.  URLs are kept polymorphic in `α`. -/
structure Payload (α : Type) where
  host : String
  key : String
  keyLocation : String
  urlList : List α
deriving DecidableEq

/-- Payload construction, mirroring source lines 255–260: the host is the
site URL with the scheme stripped, the key location is `{SITE_URL}/{API_KEY}.txt`. -/
def mkPayload (urls : List α) : Payload α :=
  { host := (SITE_URL.replace "https://" "").replace "http://" ""
    key := API_KEY
    keyLocation := SITE_URL ++ "/" ++ API_KEY ++ ".txt"
    urlList := urls }

/-- Observable outcome of one `submit_to_indexnow` call: the returned
boolean, the sequence of POST payloads actually sent, and the number of
5-minute cooldown sleeps performed (`time.sleep(300)`, line 285). -/
structure SubmitResult (α : Type) where
  success : Bool
  requests : List (Payload α)
  waits : Nat
deriving DecidableEq

/-- The truncation step of `submit_to_indexnow` (source lines 249–252):
more than 10,000 URLs are cut down to the first 10,000. -/
def truncate (urls : List α) : List α :=
  if urls.length > 10000 then urls.take 10000 else urls

/-- `submit_to_indexnow(urls)` (source lines 233–298), with the network
modelled by `responses`: the list of HTTP status codes the endpoint
returns, one per POST, consumed front to back.  An exhausted response
list models a transport failure (`requests.exceptions.Timeout` /
exception branch, lines 291–298), which returns `False`.
Status handling follows lines 267–289: 200/202 → success; 400, 403, 422
→ failure; 429 → sleep 300 s and recursively re-submit the same batch;
anything else → failure. -/
def submit_to_indexnow : List α → List Nat → SubmitResult α
  | urls, responses =>
    if urls.isEmpty then { success := false, requests := [], waits := 0 }
    else
      let batch := truncate urls
      match responses with
      | [] => { success := false, requests := [mkPayload batch], waits := 0 }
      | status :: rest =>
        if status = 200 ∨ status = 202 then
          { success := true, requests := [mkPayload batch], waits := 0 }
        else if status = 400 then
          { success := false, requests := [mkPayload batch], waits := 0 }
        else if status = 403 then
          { success := false, requests := [mkPayload batch], waits := 0 }
        else if status = 422 then
          { success := false, requests := [mkPayload batch], waits := 0 }
        else if status = 429 then
          let r := submit_to_indexnow batch rest
          { success := r.success, requests := mkPayload batch :: r.requests
            waits := r.waits + 1 }
        else
          { success := false, requests := [mkPayload batch], waits := 0 }
  termination_by _ responses => responses.length
  decreasing_by simp_all [Nat.lt_succ_iff]

/-- Observable outcome of the submit-and-record step of `main`. -/
structure MainStepResult (α : Type) where
  success : Bool
  requests : List (Payload α)
  waits : Nat
  ledgerAppended : List α
deriving DecidableEq

/-- The submit/record step of `main` (source lines 379–387):
`success = submit_to_indexnow(urls_to_submit)`; on success the *whole*
list `urls_to_submit` is appended to the ledger via
`save_submitted_urls(urls_to_submit)` (line 384); on failure nothing is
appended. -/
def mainSubmitStep (urls_to_submit : List α) (responses : List Nat) :
    MainStepResult α :=
  let r := submit_to_indexnow urls_to_submit responses
  { success := r.success
    requests := r.requests
    waits := r.waits
    ledgerAppended := if r.success then urls_to_submit else [] }

/-! ### Sitemap fetcher -/

/-- A parsed XML element as `xml.etree.ElementTree` presents it: a
(namespace, local tag) pair — ElementTree spells a namespaced tag
`{uri}tag`, here split into two fields, with `ns = ""` for an
un-namespaced tag — optional text, and the list of child elements in
document order. -/
inductive XmlElem : Type where
  | mk : String → String → Option String → List XmlElem → XmlElem

/-- Namespace URI of an element. -/
def XmlElem.ns : XmlElem → String
  | .mk n _ _ _ => n

/-- Local tag of an element. -/
def XmlElem.tag : XmlElem → String
  | .mk _ t _ _ => t

/-- Text of an element (`None` in Python becomes `none`). -/
def XmlElem.text : XmlElem → Option String
  | .mk _ _ tx _ => tx

/-- Children of an element, in document order. -/
def XmlElem.children : XmlElem → List XmlElem
  | .mk _ _ _ cs => cs

/-- Python's `str.strip()` — remove leading and trailing whitespace —
modelled executably on the character list (Lean's own `String.trim` is
extensionally the same but does not reduce definitionally). -/
def pyStrip (s : String) : String :=
  ⟨((s.data.dropWhile Char.isWhitespace).reverse.dropWhile
      Char.isWhitespace).reverse⟩

/-- The sitemap namespace URI bound to prefix `sm` (source line 78). -/
def smNS : String := "http://www.sitemaps.org/schemas/sitemap/0.9"

/-- `elem.findall(tag)` for a simple (non-`.//`) path: the direct
children whose namespace and tag match, in document order. -/
def findall (e : XmlElem) (ns tag : String) : List XmlElem :=
  e.children.filter (fun c => c.ns = ns && c.tag = tag)

/-- `elem.find(tag)` for a simple path: the first matching direct
child, or `none`. -/
def find (e : XmlElem) (ns tag : String) : Option XmlElem :=
  (findall e ns tag).head?

/-- The per-entry extraction shared by all three parsing passes
(source lines 86–88, 93–95, 100–104): find the first `loc` child in
namespace `ns`; if it exists and its text is truthy (non-`None` and
non-empty), yield `text.strip()`. -/
def locOf (ns : String) (e : XmlElem) : Option String :=
  match find e ns "loc" with
  | none => none
  | some loc =>
    match loc.text with
    | none => none
    | some t => if t = "" then none else some (pyStrip t)

/-- First parsing pass (source lines 85–88): namespaced `<url><loc>`
entries, in document order. -/
def nsUrlLocs (root : XmlElem) : List String :=
  (findall root smNS "url").filterMap (locOf smNS)

mutual
/-- All elements of the subtree rooted at `e`, `e` first, in document
order (preorder). -/
def XmlElem.preorder : XmlElem → List XmlElem
  | .mk ns tag tx cs => .mk ns tag tx cs :: preorderList cs

/-- Preorder traversal of a forest, in document order. -/
def preorderList : List XmlElem → List XmlElem
  | [] => []
  | c :: cs => c.preorder ++ preorderList cs
end

/-- `root.findall('.//url')` (source line 92): all un-namespaced `url`
descendants of the root, at any depth, in document order. -/
def descendantUrlElems (root : XmlElem) : List XmlElem :=
  (preorderList root.children).filter (fun c => c.ns = "" && c.tag = "url")

/-- Second parsing pass (source lines 91–95): un-namespaced
`<url><loc>` entries, tried only when the namespaced pass found
nothing. -/
def fallbackUrlLocs (root : XmlElem) : List String :=
  (descendantUrlElems root).filterMap (locOf "")

/-- The sub-sitemap locations of a sitemap index (source lines 99–104):
namespaced `<sitemap><loc>` entries, in document order. -/
def sitemapLocs (root : XmlElem) : List String :=
  (findall root smNS "sitemap").filterMap (locOf smNS)

/-- Outcome of one HTTP GET of a sitemap URL, as `fetch_sitemap_urls`
observes it: either a transport-level failure (timeout, connection
error, any other exception — source lines 118–128), or a status code
together with the parse of the body (`none` models malformed XML,
which raises `ET.ParseError`, lines 73 and 115–117). -/
inductive HttpFetch : Type where
  | netError : HttpFetch
  | ok : Nat → Option XmlElem → HttpFetch

/-- `fetch_sitemap_urls(sitemap_url)` (source lines 49–128).  The
network is the oracle `world`.  Python's unbounded recursion into
sub-sitemaps (line 104, no cycle detection) is made total with `fuel`:
each recursion level consumes one unit, and exhausted fuel returns `[]`
(modelling the stack overflow the spec names as a known limitation —
no claim exercises that case).  A non-200 status, transport error or
malformed body yields `[]`; otherwise the three passes run in order:
namespaced `<url><loc>`, un-namespaced fallback, and — only if both
found nothing — recursion into each namespaced `<sitemap><loc>`,
concatenating results. -/
def fetch_sitemap_urls (world : String → HttpFetch) :
    Nat → String → List String
  | 0, _ => []
  | fuel + 1, sitemap_url =>
    match world sitemap_url with
    | .netError => []
    | .ok status body =>
      if status ≠ 200 then []
      else
        match body with
        | none => []
        | some root =>
          let urls := nsUrlLocs root
          let urls := if urls.isEmpty then fallbackUrlLocs root else urls
          if urls.isEmpty then
            (sitemapLocs root).flatMap
              (fun sub => fetch_sitemap_urls world fuel sub)
          else urls

/-! ### Submission ledger -/

/-- `load_submitted_urls()` (source lines 131–148).  The ledger file is
modelled at line granularity: `none` is a missing file
(`FileNotFoundError` → empty set, first run), `some lines` its lines.
Python builds `set(line.strip() for line in f if line.strip())`:
every line with truthy `strip()` contributes its stripped form. -/
def load_submitted_urls : Option (List String) → Finset String
  | none => ∅
  | some lines =>
    (lines.filterMap
      (fun line =>
        if pyStrip line = "" then none else some (pyStrip line))).toFinset

/-- `save_submitted_urls(urls)` (source lines 151–169): opens the
ledger in append mode (creating it when missing) and writes each URL as
one line. -/
def save_submitted_urls (urls : List String) :
    Option (List String) → Option (List String)
  | none => some urls
  | some lines => some (lines ++ urls)

/-! ### Diff engine -/

/-- `get_new_urls(all_urls, submitted_urls)` (source lines 172–185):
`set(all_urls) - submitted_urls`.  Python returns `list(new_urls)` in
unspecified set-iteration order; the result is kept as the `Finset`. -/
def get_new_urls [DecidableEq α] (all_urls : List α)
    (submitted_urls : Finset α) : Finset α :=
  all_urls.toFinset \ submitted_urls

/-! ### Helper lemmas about the submission client -/

theorem truncate_eq_take (urls : List α) (h : 10000 < urls.length) :
    truncate urls = urls.take 10000 := by
  simp [truncate, h]

theorem truncate_ne_nil (urls : List α) (h : urls ≠ []) : truncate urls ≠ [] := by
  unfold truncate
  split
  · simp [List.take_eq_nil_iff, h]
  · exact h

theorem truncate_idem (urls : List α) : truncate (truncate urls) = truncate urls := by
  by_cases h : 10000 < urls.length
  · simp [truncate, h]
  · simp [truncate, h]

theorem submit_nil_input (responses : List Nat) :
    submit_to_indexnow ([] : List α) responses =
      { success := false, requests := [], waits := 0 } := by
  rw [submit_to_indexnow]
  simp

/-- One-step unfolding of `submit_to_indexnow` on a non-empty input. -/
theorem submit_cons (urls : List α) (h : urls ≠ []) (s : Nat) (rest : List Nat) :
    submit_to_indexnow urls (s :: rest) =
      if s = 200 ∨ s = 202 then
        { success := true, requests := [mkPayload (truncate urls)], waits := 0 }
      else if s = 429 then
        let r := submit_to_indexnow (truncate urls) rest
        { success := r.success, requests := mkPayload (truncate urls) :: r.requests
          waits := r.waits + 1 }
      else
        { success := false, requests := [mkPayload (truncate urls)], waits := 0 } := by
  rw [submit_to_indexnow]
  simp only [List.isEmpty_eq_true, h, if_false]
  by_cases h1 : s = 200 ∨ s = 202
  · simp [h1]
  · by_cases h2 : s = 429
    · simp [h1, h2]
    · simp only [h1, if_false, h2]
      split_ifs <;> rfl

/-- Behaviour on a response sequence of `k` rate-limit answers followed by a
first non-429 status `s`: the outcome is decided by `s` alone, every one of
the `k + 1` requests carries the same truncated batch, and one cooldown wait
precedes each retry. -/
theorem submit_replicate (urls : List α) (k : Nat) (s : Nat) (rest : List Nat)
    (h : urls ≠ []) (hs : s ≠ 429) :
    submit_to_indexnow urls (List.replicate k 429 ++ s :: rest) =
      { success := if s = 200 ∨ s = 202 then true else false
        requests := List.replicate (k + 1) (mkPayload (truncate urls))
        waits := k } := by
  induction k generalizing urls with
  | zero =>
    rw [List.replicate_zero, List.nil_append, submit_cons urls h s rest]
    by_cases h1 : s = 200 ∨ s = 202
    · simp [h1]
    · simp [h1, hs]
  | succ k ih =>
    rw [List.replicate_succ, List.cons_append,
      submit_cons urls h 429 (List.replicate k 429 ++ s :: rest)]
    have hb : truncate urls ≠ [] := truncate_ne_nil urls h
    simp only [show ¬(429 = 200 ∨ 429 = 202) by decide, if_false, if_pos rfl]
    rw [ih (truncate urls) hb, truncate_idem]
    simp [List.replicate_succ]

/-- On a non-empty input, at least one request is sent and every request sent
by one `submit_to_indexnow` call carries the same truncated batch. -/
theorem submit_requests_all (urls : List α) (responses : List Nat) (h : urls ≠ []) :
    (submit_to_indexnow urls responses).requests ≠ [] ∧
    ∀ p ∈ (submit_to_indexnow urls responses).requests,
      p = mkPayload (truncate urls) := by
  induction responses generalizing urls with
  | nil =>
    rw [submit_to_indexnow]
    simp [h]
  | cons s rest ih =>
    rw [submit_cons urls h s rest]
    by_cases h1 : s = 200 ∨ s = 202
    · simp [h1]
    · by_cases h2 : s = 429
      · have hb : truncate urls ≠ [] := truncate_ne_nil urls h
        have hrec := ih (truncate urls) hb
        rw [truncate_idem] at hrec
        simp only [h1, if_false, h2, if_pos rfl]
        constructor
        · simp
        · intro p hp
          rcases List.mem_cons.mp hp with hp | hp
          · exact hp
          · exact hrec.2 p hp
      · simp [h1, h2]

/-! ### Claim theorems: submission client -/

/-- C2: on any response sequence of finitely many 429s followed by a 200 or
202, `submit_to_indexnow` returns success, every retried request carries the
same (truncated) batch as the first request, and one cooldown wait precedes
each retry; `k` leading 429s give exactly `k` waits. -/
theorem submit_retries_same_batch_until_success (α : Type) (urls : List α)
    (k s : Nat) (rest : List Nat) (h : urls ≠ []) (hs : s = 200 ∨ s = 202) :
    (submit_to_indexnow urls (List.replicate k 429 ++ s :: rest)).success = true ∧
    (submit_to_indexnow urls (List.replicate k 429 ++ s :: rest)).waits = k ∧
    (submit_to_indexnow urls (List.replicate k 429 ++ s :: rest)).requests
      = List.replicate (k + 1) (mkPayload (truncate urls)) := by
  have hs429 : s ≠ 429 := by rcases hs with h' | h' <;> omega
  rw [submit_replicate urls k s rest h hs429]
  simp [hs]

/-- C2 witness: for the response sequence [429, 429, 200] on input [0],
submit succeeds after exactly two cooldown waits, having sent the same
payload three times. -/
theorem submit_retries_same_batch_until_success_witness :
    (([0] : List Nat) ≠ []) ∧
    (submit_to_indexnow ([0] : List Nat) [429, 429, 200]).success = true ∧
    (submit_to_indexnow ([0] : List Nat) [429, 429, 200]).waits = 2 ∧
    (submit_to_indexnow ([0] : List Nat) [429, 429, 200]).requests
      = List.replicate 3 (mkPayload (truncate [0])) := by
  have h := submit_retries_same_batch_until_success Nat [0] 2 200 []
    (by simp) (Or.inl rfl)
  constructor
  · simp
  · simpa [List.replicate] using h

/-- C3: on any response sequence whose first non-429 status is `s`, submit
succeeds iff `s` is 200 or 202; when `s` is any other status (400, 403, 422,
or anything else), it fails after exactly one request beyond the 429 prefix
(no retry); and whenever submission fails, `main` appends nothing to the
ledger. -/
theorem submit_status_policy_and_ledger :
    (∀ (α : Type) (urls : List α) (k s : Nat) (rest : List Nat),
      urls ≠ [] → s ≠ 429 →
      (((mainSubmitStep urls (List.replicate k 429 ++ s :: rest)).success = true)
          ↔ (s = 200 ∨ s = 202)) ∧
      (¬(s = 200 ∨ s = 202) →
        (mainSubmitStep urls (List.replicate k 429 ++ s :: rest)).success = false ∧
        (mainSubmitStep urls (List.replicate k 429 ++ s :: rest)).requests.length
          = k + 1)) ∧
    (∀ (α : Type) (urls : List α) (responses : List Nat),
      (mainSubmitStep urls responses).success = false →
      (mainSubmitStep urls responses).ledgerAppended = []) := by
  constructor
  · intro α urls k s rest h hs429
    have hr := submit_replicate urls k s rest h hs429
    constructor
    · simp [mainSubmitStep, hr]
    · intro h1
      simp [mainSubmitStep, hr, h1]
  · intro α urls responses hfail
    simp only [mainSubmitStep] at hfail ⊢
    simp [hfail]

/-- C3 witness: input [0] with single response 403 fails, sends exactly one
request, and appends nothing to the ledger. -/
theorem submit_status_policy_and_ledger_witness :
    (([0] : List Nat) ≠ []) ∧ ((403 : Nat) ≠ 429) ∧
    ¬((403 : Nat) = 200 ∨ (403 : Nat) = 202) ∧
    (mainSubmitStep ([0] : List Nat) [403]).success = false ∧
    (mainSubmitStep ([0] : List Nat) [403]).requests.length = 1 ∧
    (mainSubmitStep ([0] : List Nat) [403]).ledgerAppended = [] := by
  have h0 := (submit_status_policy_and_ledger.1 Nat [0] 0 403 []
    (by simp) (by decide)).2 (by decide)
  have h1 : (mainSubmitStep ([0] : List Nat) [403]).success = false := by
    simpa [List.replicate] using h0.1
  have h2 : (mainSubmitStep ([0] : List Nat) [403]).requests.length = 1 := by
    simpa [List.replicate] using h0.2
  have h3 := submit_status_policy_and_ledger.2 Nat [0] [403] h1
  exact ⟨by simp, by decide, by decide, h1, h2, h3⟩

/-- C4: when more than 10,000 URLs are passed in, every request payload sent
carries exactly the first 10,000 of them, in the caller's order, and at
least one request is sent. -/
theorem submit_payload_truncated_to_first_10000 (α : Type) (urls : List α)
    (responses : List Nat) (h : 10000 < urls.length) :
    (submit_to_indexnow urls responses).requests ≠ [] ∧
    ∀ p ∈ (submit_to_indexnow urls responses).requests,
      p.urlList = urls.take 10000 := by
  have hne : urls ≠ [] := by
    intro e
    rw [e] at h
    simp at h
  have hall := submit_requests_all urls responses hne
  refine ⟨hall.1, fun p hp => ?_⟩
  rw [hall.2 p hp, truncate_eq_take urls h]
  simp [mkPayload]

/-- C4 witness: 10,001 URLs with response 403: the one request sent carries
exactly the first 10,000. -/
theorem submit_payload_truncated_to_first_10000_witness :
    (10000 < (List.range 10001).length) ∧
    ∀ p ∈ (submit_to_indexnow (List.range 10001) [403]).requests,
      p.urlList = (List.range 10001).take 10000 :=
  ⟨by simp, (submit_payload_truncated_to_first_10000 Nat (List.range 10001)
    [403] (by simp)).2⟩

/-- C9: on the empty input list, submit fails immediately and sends no
request at all. -/
theorem submit_empty_input_fails_without_request (α : Type)
    (responses : List Nat) :
    (submit_to_indexnow ([] : List α) responses).success = false ∧
    (submit_to_indexnow ([] : List α) responses).requests = [] := by
  rw [submit_nil_input]
  exact ⟨rfl, rfl⟩

/-- C1 (code evaluation at the failing input): with 10,001 distinct URLs and
a single 200 response, `main`'s record step appends the *entire* input list
to the ledger — including URL 10000, which appears in no request payload
ever sent.  The ledger therefore leaves the set of successfully submitted
URLs, refuting the stated invariant: the truncation at source lines 249–252
rebinds only the local `urls` of `submit_to_indexnow`, while line 384
appends the untruncated `urls_to_submit`. -/
theorem main_ledger_gains_unsubmitted_tail :
    (mainSubmitStep (List.range 10001) [200]).success = true ∧
    (mainSubmitStep (List.range 10001) [200]).ledgerAppended = List.range 10001 ∧
    (∀ p ∈ (mainSubmitStep (List.range 10001) [200]).requests,
      p.urlList = List.range 10000) ∧
    10000 ∈ (mainSubmitStep (List.range 10001) [200]).ledgerAppended ∧
    ∀ p ∈ (mainSubmitStep (List.range 10001) [200]).requests,
      10000 ∉ p.urlList := by
  have hne : (List.range 10001) ≠ [] := by simp
  have htr : truncate (List.range 10001) = List.range 10000 := by
    rw [truncate_eq_take _ (by simp), List.take_range]
    norm_num
  have hsub : submit_to_indexnow (List.range 10001) [200] =
      { success := true
        requests := [mkPayload (List.range 10000)]
        waits := 0 } := by
    have h := submit_replicate (List.range 10001) 0 200 [] hne (by decide)
    simpa [List.replicate, htr] using h
  refine ⟨?_, ?_, ?_, ?_, ?_⟩
  · simp [mainSubmitStep, hsub]
  · simp [mainSubmitStep, hsub]
  · simp [mainSubmitStep, hsub, mkPayload]
  · simp [mainSubmitStep, hsub, List.mem_range]
  · simp [mainSubmitStep, hsub, mkPayload, List.mem_range]

/-! ### Helper lemmas about the fetcher and ledger -/

theorem length_filterMap_eq_countP {α β : Type} (l : List α) (f : α → Option β) :
    (l.filterMap f).length = l.countP (fun a => (f a).isSome) := by
  induction l with
  | nil => rfl
  | cons a l ih =>
    cases h : f a <;> simp [List.filterMap_cons, List.countP_cons, h, ih]

/-- One-step unfolding of `fetch_sitemap_urls` when the GET succeeds with
status 200 and a well-formed body. -/
theorem fetch_ok_200 (world : String → HttpFetch) (fuel : Nat) (url : String)
    (root : XmlElem) (h : world url = .ok 200 (some root)) :
    fetch_sitemap_urls world (fuel + 1) url =
      (if ((if (nsUrlLocs root).isEmpty then fallbackUrlLocs root
            else nsUrlLocs root)).isEmpty then
        (sitemapLocs root).flatMap (fun sub => fetch_sitemap_urls world fuel sub)
      else
        (if (nsUrlLocs root).isEmpty then fallbackUrlLocs root
         else nsUrlLocs root)) := by
  rw [fetch_sitemap_urls, h]
  simp

theorem save_eq_append (urls : List String) (prior : Option (List String)) :
    save_submitted_urls urls prior = some (prior.getD [] ++ urls) := by
  cases prior <;> simp [save_submitted_urls]

/-! ### Claim theorems: fetcher, diff engine, ledger -/

/-- C5: on a document with no sub-sitemap entries, fetch returns the
namespaced `<url><loc>` extraction when it is non-empty and the
un-namespaced fallback extraction otherwise — never a mixture — and the
result has exactly one URL per entry of the pass used, in document order. -/
theorem fetch_single_doc_one_pass (world : String → HttpFetch) (fuel : Nat)
    (url : String) (root : XmlElem) (h : world url = .ok 200 (some root))
    (hnosm : findall root smNS "sitemap" = []) :
    (fetch_sitemap_urls world (fuel + 1) url =
      if (nsUrlLocs root).isEmpty then fallbackUrlLocs root
      else nsUrlLocs root) ∧
    (nsUrlLocs root ≠ [] →
      (fetch_sitemap_urls world (fuel + 1) url).length =
        (findall root smNS "url").countP (fun e => (locOf smNS e).isSome)) ∧
    (nsUrlLocs root = [] →
      (fetch_sitemap_urls world (fuel + 1) url).length =
        (descendantUrlElems root).countP (fun e => (locOf "" e).isSome)) := by
  have hsm : sitemapLocs root = [] := by
    simp [sitemapLocs, hnosm]
  have hmain : fetch_sitemap_urls world (fuel + 1) url =
      if (nsUrlLocs root).isEmpty then fallbackUrlLocs root
      else nsUrlLocs root := by
    rw [fetch_ok_200 world fuel url root h]
    by_cases h1 : (nsUrlLocs root).isEmpty
    · by_cases h2 : (fallbackUrlLocs root).isEmpty
      · simp_all [hsm, List.isEmpty_iff]
      · simp [h1, h2]
    · simp [h1]
  refine ⟨hmain, fun hns => ?_, fun hns => ?_⟩
  · rw [hmain]
    simp only [List.isEmpty_eq_true, hns, if_false]
    exact length_filterMap_eq_countP _ _
  · rw [hmain]
    simp only [hns, List.isEmpty_nil, if_true]
    exact length_filterMap_eq_countP _ _

/-- C5 witness: a two-entry namespaced sitemap with no sub-sitemaps yields
exactly its two URLs in document order, from the namespaced pass. -/
theorem fetch_single_doc_one_pass_witness :
    ((fun _ : String => HttpFetch.ok 200 (some (XmlElem.mk smNS "urlset" none
        [XmlElem.mk smNS "url" none [XmlElem.mk smNS "loc" (some "https://e.com/1") []],
         XmlElem.mk smNS "url" none [XmlElem.mk smNS "loc" (some "https://e.com/2") []]])))
        "https://e.com/sitemap.xml"
      = HttpFetch.ok 200 (some (XmlElem.mk smNS "urlset" none
        [XmlElem.mk smNS "url" none [XmlElem.mk smNS "loc" (some "https://e.com/1") []],
         XmlElem.mk smNS "url" none [XmlElem.mk smNS "loc" (some "https://e.com/2") []]]))) ∧
    (findall (XmlElem.mk smNS "urlset" none
        [XmlElem.mk smNS "url" none [XmlElem.mk smNS "loc" (some "https://e.com/1") []],
         XmlElem.mk smNS "url" none [XmlElem.mk smNS "loc" (some "https://e.com/2") []]])
      smNS "sitemap" = []) ∧
    fetch_sitemap_urls
      (fun _ : String => HttpFetch.ok 200 (some (XmlElem.mk smNS "urlset" none
        [XmlElem.mk smNS "url" none [XmlElem.mk smNS "loc" (some "https://e.com/1") []],
         XmlElem.mk smNS "url" none [XmlElem.mk smNS "loc" (some "https://e.com/2") []]])))
      1 "https://e.com/sitemap.xml" = ["https://e.com/1", "https://e.com/2"] := by
  refine ⟨rfl, by simp [findall, XmlElem.children, XmlElem.ns, XmlElem.tag, smNS], ?_⟩
  have h := (fetch_single_doc_one_pass
    (fun _ : String => HttpFetch.ok 200 (some (XmlElem.mk smNS "urlset" none
      [XmlElem.mk smNS "url" none [XmlElem.mk smNS "loc" (some "https://e.com/1") []],
       XmlElem.mk smNS "url" none [XmlElem.mk smNS "loc" (some "https://e.com/2") []]])))
    0 "https://e.com/sitemap.xml" _ rfl
    (by simp [findall, XmlElem.children, XmlElem.ns, XmlElem.tag, smNS])).1
  rw [h]
  rfl

/-- C6: a transport error, a non-200 status, or a malformed body each make
fetch return the empty list (fetch is a total function: no exception). -/
theorem fetch_failure_returns_empty (world : String → HttpFetch) (fuel : Nat)
    (url : String) :
    (world url = .netError → fetch_sitemap_urls world fuel url = []) ∧
    (∀ s body, world url = .ok s body → s ≠ 200 →
      fetch_sitemap_urls world fuel url = []) ∧
    (∀ s, world url = .ok s none → fetch_sitemap_urls world fuel url = []) := by
  refine ⟨fun h => ?_, fun s body h hs => ?_, fun s h => ?_⟩
  · cases fuel with
    | zero => rfl
    | succ n => rw [fetch_sitemap_urls, h]
  · cases fuel with
    | zero => rfl
    | succ n =>
      rw [fetch_sitemap_urls, h]
      simp [hs]
  · cases fuel with
    | zero => rfl
    | succ n =>
      rw [fetch_sitemap_urls, h]
      by_cases hs : s = 200 <;> simp [hs]

/-- C6 witness: a timed-out GET at fuel 1 yields the empty list. -/
theorem fetch_failure_returns_empty_witness :
    ((fun _ : String => HttpFetch.netError) "u" = HttpFetch.netError) ∧
    fetch_sitemap_urls (fun _ : String => HttpFetch.netError) 1 "u" = [] :=
  ⟨rfl, (fetch_failure_returns_empty (fun _ => HttpFetch.netError) 1 "u").1 rfl⟩

/-- C10: on a document that has sitemap-index entries but also at least one
page URL (from either extraction pass), fetch returns just those page URLs
and never follows the sub-sitemaps: the result is the same under any two
network oracles that agree on the document itself, with any recursion
budgets. -/
theorem fetch_page_urls_preempt_index (world world2 : String → HttpFetch)
    (fuel fuel2 : Nat) (url : String) (root : XmlElem)
    (h : world url = .ok 200 (some root))
    (h2 : world2 url = .ok 200 (some root))
    (hsm : findall root smNS "sitemap" ≠ [])
    (hpage : nsUrlLocs root ≠ [] ∨ fallbackUrlLocs root ≠ []) :
    (fetch_sitemap_urls world (fuel + 1) url =
      if (nsUrlLocs root).isEmpty then fallbackUrlLocs root
      else nsUrlLocs root) ∧
    fetch_sitemap_urls world (fuel + 1) url
      = fetch_sitemap_urls world2 (fuel2 + 1) url := by
  have key : ∀ (w : String → HttpFetch) (f : Nat), w url = .ok 200 (some root) →
      fetch_sitemap_urls w (f + 1) url =
        if (nsUrlLocs root).isEmpty then fallbackUrlLocs root
        else nsUrlLocs root := by
    intro w f hw
    rw [fetch_ok_200 w f url root hw]
    by_cases h1 : (nsUrlLocs root).isEmpty
    · have h2f : ¬(fallbackUrlLocs root).isEmpty := by
        rcases hpage with hp | hp
        · exact absurd (List.isEmpty_iff.mp h1) hp
        · simp [List.isEmpty_iff, hp]
      simp [h1, h2f]
    · simp [h1]
  exact ⟨key world fuel h, by rw [key world fuel h, key world2 fuel2 h2]⟩

/-- C10 witness: a document carrying one namespaced page URL and one
sub-sitemap entry returns just the page URL, identically under two oracles
that disagree everywhere except at the document's own URL. -/
theorem fetch_page_urls_preempt_index_witness :
    (nsUrlLocs (XmlElem.mk smNS "urlset" none
        [XmlElem.mk smNS "url" none [XmlElem.mk smNS "loc" (some "https://e.com/p") []],
         XmlElem.mk smNS "sitemap" none [XmlElem.mk smNS "loc" (some "https://e.com/sub.xml") []]])
      ≠ [] ∨ fallbackUrlLocs (XmlElem.mk smNS "urlset" none
        [XmlElem.mk smNS "url" none [XmlElem.mk smNS "loc" (some "https://e.com/p") []],
         XmlElem.mk smNS "sitemap" none [XmlElem.mk smNS "loc" (some "https://e.com/sub.xml") []]])
      ≠ []) ∧
    (findall (XmlElem.mk smNS "urlset" none
        [XmlElem.mk smNS "url" none [XmlElem.mk smNS "loc" (some "https://e.com/p") []],
         XmlElem.mk smNS "sitemap" none [XmlElem.mk smNS "loc" (some "https://e.com/sub.xml") []]])
      smNS "sitemap" ≠ []) ∧
    fetch_sitemap_urls
      (fun u : String => if u = "https://e.com/sitemap.xml" then
        HttpFetch.ok 200 (some (XmlElem.mk smNS "urlset" none
          [XmlElem.mk smNS "url" none [XmlElem.mk smNS "loc" (some "https://e.com/p") []],
           XmlElem.mk smNS "sitemap" none [XmlElem.mk smNS "loc" (some "https://e.com/sub.xml") []]]))
        else HttpFetch.netError)
      1 "https://e.com/sitemap.xml" = ["https://e.com/p"] ∧
    fetch_sitemap_urls
      (fun u : String => if u = "https://e.com/sitemap.xml" then
        HttpFetch.ok 200 (some (XmlElem.mk smNS "urlset" none
          [XmlElem.mk smNS "url" none [XmlElem.mk smNS "loc" (some "https://e.com/p") []],
           XmlElem.mk smNS "sitemap" none [XmlElem.mk smNS "loc" (some "https://e.com/sub.xml") []]]))
        else HttpFetch.ok 200 (some (XmlElem.mk smNS "urlset" none
          [XmlElem.mk smNS "url" none [XmlElem.mk smNS "loc" (some "https://other/q") []]])))
      5 "https://e.com/sitemap.xml" = ["https://e.com/p"] := by
  have hthm := fetch_page_urls_preempt_index
    (fun u : String => if u = "https://e.com/sitemap.xml" then
      HttpFetch.ok 200 (some (XmlElem.mk smNS "urlset" none
        [XmlElem.mk smNS "url" none [XmlElem.mk smNS "loc" (some "https://e.com/p") []],
         XmlElem.mk smNS "sitemap" none [XmlElem.mk smNS "loc" (some "https://e.com/sub.xml") []]]))
      else HttpFetch.netError)
    (fun u : String => if u = "https://e.com/sitemap.xml" then
      HttpFetch.ok 200 (some (XmlElem.mk smNS "urlset" none
        [XmlElem.mk smNS "url" none [XmlElem.mk smNS "loc" (some "https://e.com/p") []],
         XmlElem.mk smNS "sitemap" none [XmlElem.mk smNS "loc" (some "https://e.com/sub.xml") []]]))
      else HttpFetch.ok 200 (some (XmlElem.mk smNS "urlset" none
        [XmlElem.mk smNS "url" none [XmlElem.mk smNS "loc" (some "https://other/q") []]])))
    0 4 "https://e.com/sitemap.xml" _ rfl rfl
    (by simp [findall, XmlElem.children, XmlElem.ns, XmlElem.tag, smNS])
    (Or.inl (by simp [nsUrlLocs, findall, locOf, find, XmlElem.children,
      XmlElem.ns, XmlElem.tag, XmlElem.text, smNS]))
  refine ⟨Or.inl (by simp [nsUrlLocs, findall, locOf, find, XmlElem.children,
      XmlElem.ns, XmlElem.tag, XmlElem.text, smNS]),
    by simp [findall, XmlElem.children, XmlElem.ns, XmlElem.tag, smNS], ?_, ?_⟩
  · rw [hthm.1]
    rfl
  · rw [← hthm.2, hthm.1]
    rfl

/-- C7: the diff engine is exact set difference — an element is in the
result exactly when it occurs in the input list (duplicates allowed) and is
not among the already-submitted URLs. -/
theorem get_new_urls_is_set_difference (α : Type) [DecidableEq α]
    (all_urls : List α) (submitted_urls : Finset α) (x : α) :
    x ∈ get_new_urls all_urls submitted_urls
      ↔ (x ∈ all_urls ∧ x ∉ submitted_urls) := by
  simp [get_new_urls]

/-- C8: loading with no persisted history gives the empty set; after
appending `[a, b]` to any prior store, a load finds both `a` and `b`; and
blank lines in the store are ignored by load. -/
theorem ledger_load_append_roundtrip :
    (load_submitted_urls none = ∅) ∧
    (∀ (prior : Option (List String)) (a b : String),
      pyStrip a = a → a ≠ "" → pyStrip b = b → b ≠ "" →
      a ∈ load_submitted_urls (save_submitted_urls [a, b] prior) ∧
      b ∈ load_submitted_urls (save_submitted_urls [a, b] prior)) ∧
    (∀ (pre post : List String) (blank : String), pyStrip blank = "" →
      load_submitted_urls (some (pre ++ blank :: post)) =
        load_submitted_urls (some (pre ++ post))) := by
  refine ⟨rfl, fun prior a b ha ha0 hb hb0 => ?_, fun pre post blank hblank => ?_⟩
  · rw [save_eq_append]
    have hissue : ∀ (u : String), pyStrip u = u → u ≠ "" →
        u ∈ [a, b] → u ∈ load_submitted_urls (some (prior.getD [] ++ [a, b])) := by
      intro u hu hu0 humem
      simp only [load_submitted_urls, List.mem_toFinset, List.mem_filterMap]
      refine ⟨u, List.mem_append_right _ humem, ?_⟩
      rw [hu]
      simp [hu0]
    exact ⟨hissue a ha ha0 (by simp), hissue b hb hb0 (by simp)⟩
  · simp [load_submitted_urls, List.filterMap_append, List.filterMap_cons, hblank]

/-- C8 witness: first-run load is empty; appending ["a", "b"] to an empty
store then loading finds both; a whitespace-only line is ignored. -/
theorem ledger_load_append_roundtrip_witness :
    (load_submitted_urls none = ∅) ∧
    ("a" ∈ load_submitted_urls (save_submitted_urls ["a", "b"] none) ∧
     "b" ∈ load_submitted_urls (save_submitted_urls ["a", "b"] none)) ∧
    load_submitted_urls (some ([] ++ " " :: [])) =
      load_submitted_urls (some ([] ++ [])) := by
  refine ⟨ledger_load_append_roundtrip.1, ?_, ?_⟩
  · exact ledger_load_append_roundtrip.2.1 none "a" "b" (by decide) (by decide)
      (by decide) (by decide)
  · exact ledger_load_append_roundtrip.2.2 [] [] " " (by decide)

end IndexNow
